import Mathlib

/-!
Verification development for the telemetry emission pipeline of
`signoz-stack/examples/python-app/app.py`: trace-context correlated logging
(`log_with_trace`), span nesting, and dual-trigger batch export.

Python dictionaries are embedded as association lists with insertion-order
semantics: assigning to an existing key updates it in place, assigning a new
key appends it at the end, exactly as CPython dicts behave.
-/

namespace SignozApp

/-- Scalar attribute values that appear in log records. -/
inductive Value where
  | str (s : String)
  | int (n : Int)
  | bool (b : Bool)
deriving DecidableEq, Repr

/-- A Python dict of string keys, as an insertion-ordered association list. -/
abbrev Dict := List (String × Value)

/-- `d[k]` lookup: first (and, by construction, only) binding of `k`. -/
def Dict.get : Dict → String → Option Value
  | [], _ => none
  | kv :: rest, k => if kv.1 = k then some kv.2 else Dict.get rest k

/-- `d[k] = v`: update the existing binding in place, else append at the end. -/
def Dict.insert : Dict → String → Value → Dict
  | [], k, v => [(k, v)]
  | kv :: rest, k, v => if kv.1 = k then (k, v) :: rest else kv :: Dict.insert rest k v

/-- `d.setdefault(k, v)`: insert only when the key is absent. -/
def Dict.setdefault : Dict → String → Value → Dict
  | [], k, v => [(k, v)]
  | kv :: rest, k, v => if kv.1 = k then kv :: rest else kv :: Dict.setdefault rest k v

/-- `{**a, **b}`: start from `a` and assign each binding of `b` in order. -/
def Dict.merge (a b : Dict) : Dict :=
  b.foldl (fun acc kv => Dict.insert acc kv.1 kv.2) a

/-- Lowercase hexadecimal digits: the decimal digits or the letters a to f. -/
def isHexChar (c : Char) : Bool :=
  ('0' ≤ c && c ≤ '9') || ('a' ≤ c && c ≤ 'f')

/-- Python `format(n, '0{w}x')`: lowercase hex, zero-padded to width `w`. -/
def format_x (w n : Nat) : String :=
  let hex := Nat.toDigits 16 n
  ⟨List.replicate (w - hex.length) '0' ++ hex⟩

/-- A valid OpenTelemetry span context, as read by `log_with_trace`. -/
structure SpanCtx where
  traceId : Nat
  spanId : Nat
deriving DecidableEq, Repr

/-- The inbound Flask request context, when one is active. -/
structure ReqCtx where
  method : String
  path : String
deriving DecidableEq, Repr

/-- Ambient state visible to `log_with_trace`: the current span context
(`none` models an invalid context), the current span's attributes, and the
Flask request context. -/
structure LogEnv where
  spanContext : Option SpanCtx
  spanAttributes : Dict
  request : Option ReqCtx
deriving Repr

/-- The HTTP attribute keys `log_with_trace` copies from the active span. -/
def httpKeys : List String :=
  ["http.method", "http.status_code", "http.route", "http.target", "http.scheme"]

/-- The `for key in [...]: if key in span.attributes: log_data[key] = ...`
loop, generalized over the key list. -/
def addKeys (attrs : Dict) (l : List String) (d : Dict) : Dict :=
  l.foldl (fun acc k =>
    match Dict.get attrs k with
    | some v => Dict.insert acc k v
    | none => acc) d

/-- `log_data.setdefault('http.method', ...)` / `setdefault('http.target', ...)`
from the Flask request context, when one is active. -/
def add_request_defaults (req : Option ReqCtx) (d : Dict) : Dict :=
  match req with
  | some r =>
      Dict.setdefault (Dict.setdefault d "http.method" (Value.str r.method))
        "http.target" (Value.str r.path)
  | none => d

/-- `log_with_trace` from `app.py`: builds the structured log record
(`log_data`) that is printed to the local sink. Mirrors the source: base dict
with `message` and `service.name`, merged `**kwargs`, then — when the span
context is valid — `trace_id`/`span_id` assignments followed by the span HTTP
attribute copy, then the request-context `setdefault` calls. -/
def log_with_trace (env : LogEnv) (message : String) (kwargs : Dict) : Dict :=
  let base : Dict := [("message", Value.str message), ("service.name", Value.str "python-test-app")]
  let d1 := Dict.merge base kwargs
  let d2 :=
    match env.spanContext with
    | some ctx =>
        addKeys env.spanAttributes httpKeys
          (Dict.insert
            (Dict.insert d1 "trace_id" (Value.str (format_x 32 ctx.traceId)))
            "span_id" (Value.str (format_x 16 ctx.spanId)))
    | none => d1
  add_request_defaults env.request d2

/-- `otlp_data = {k: v for k, v in log_data.items() if k != 'message'}`. -/
def otlp_extras (d : Dict) : Dict :=
  d.filter (fun kv => kv.1 != "message")

/-- Python `logging.INFO`. -/
def logging_INFO : Nat := 20

/-- Python `logging.WARNING`. -/
def logging_WARNING : Nat := 30

/-- Python `logging.ERROR`. -/
def logging_ERROR : Nat := 40

/-- `log_level_map.get(level, logging.INFO)` with
`log_level_map = {'info': INFO, 'warning': WARNING, 'error': ERROR}`. -/
def log_level_map_get (level : String) : Nat :=
  if level = "info" then logging_INFO
  else if level = "warning" then logging_WARNING
  else if level = "error" then logging_ERROR
  else logging_INFO

/-- `max_export_batch_size=50` from the BatchSpanProcessor and
BatchLogRecordProcessor configuration in `app.py`. -/
def max_export_batch_size : Nat := 50

/-- `schedule_delay_millis=5000` from the BatchSpanProcessor and
BatchLogRecordProcessor configuration in `app.py`. -/
def schedule_delay_millis : Nat := 5000

/-- Span status per the data model: Unset, Ok, or Error with a message. -/
inductive SpanStatus where
  | unset
  | ok
  | error (msg : String)
deriving DecidableEq, Repr

/-- A span context: one timed unit of work, possibly nested. -/
structure Span where
  traceId : Nat
  spanId : Nat
  parentSpanId : Option Nat
  name : String
  startTime : Nat
  endTime : Option Nat
  status : SpanStatus
  attributes : Dict
deriving DecidableEq, Repr

/-- Modelled from the spec: the Active-Context Tracker (§4.1) and the span
Record Buffer (§4.2). The tracker itself lives in the tracing library, not in
`app.py`; per §2/§4.1 it is a stack of open spans (innermost first) plus the
buffer of completed spans awaiting export. -/
structure Tracker where
  stack : List Span
  buffer : List Span
deriving DecidableEq, Repr

/-- Modelled from the spec: `current()` (§4.1) — read-only lookup of the
innermost open span, or `none` when no span is active. -/
def current (t : Tracker) : Option Span :=
  t.stack.head?

/-- Modelled from the spec: `start_span` (§4.1) — captures the current active
span (if any) as parent, allocates the given fresh span id, inherits the
parent's trace id or uses the fresh trace id for a root span, and pushes the
new span as the active one. -/
def start_span (name : String) (freshTrace freshSpan now : Nat) (t : Tracker) : Tracker :=
  let parent := t.stack.head?
  let tid := match parent with
    | some p => p.traceId
    | none => freshTrace
  let pid := parent.map (fun p => p.spanId)
  { t with stack :=
      { traceId := tid, spanId := freshSpan, parentSpanId := pid, name := name,
        startTime := now, endTime := none, status := SpanStatus.unset,
        attributes := [] } :: t.stack }

/-- Modelled from the spec: `set_status` (§4.1) — mutates the currently open
span only; a no-op when no span is open. -/
def set_status (st : SpanStatus) (t : Tracker) : Tracker :=
  match t.stack with
  | [] => t
  | s :: rest => { t with stack := { s with status := st } :: rest }

/-- Modelled from the spec: the scoped release of `start_span`'s handle
(§4.1) — sets `end_time`, restores the previous active span, and enqueues the
completed span into the span buffer. -/
def end_span (now : Nat) (t : Tracker) : Tracker :=
  match t.stack with
  | [] => t
  | s :: rest => { stack := rest, buffer := t.buffer ++ [{ s with endTime := some now }] }

/-- Modelled from the spec: a scoped span around a unit of work (§4.1, §9).
The unit of work is an explicit result (§9's re-architecture of
exception-based status recording); on an error result the span's status is
set to Error with the message, and the scoped release runs on both exit
paths. -/
def with_span (name : String) (freshTrace freshSpan startT endT : Nat)
    (body : Except String Unit) (t : Tracker) : Tracker :=
  let opened := start_span name freshTrace freshSpan startT t
  let closedBody :=
    match body with
    | Except.ok _ => opened
    | Except.error msg => set_status (SpanStatus.error msg) opened
  end_span endT closedBody

/-- An event seen by a Batch Scheduler: a record arriving in its buffer, or a
timer tick (the flush interval elapsing). -/
inductive SchedEvent (α : Type) where
  | enq (r : α)
  | tick

/-- Modelled from the spec: one Batch Scheduler step (§4.3) — drains up to
`max_export_batch_size` records immediately once the buffer reaches that size,
or on a timer tick (whichever comes first); an empty buffer at a tick produces
no export. Returns the new buffer and the exported batch, if any. -/
def sched_step {α : Type} (buf : List α) : SchedEvent α → List α × Option (List α)
  | SchedEvent.enq r =>
      let b := buf ++ [r]
      if max_export_batch_size ≤ b.length then
        (b.drop max_export_batch_size, some (b.take max_export_batch_size))
      else (b, none)
  | SchedEvent.tick =>
      if buf.isEmpty then (buf, none)
      else (buf.drop max_export_batch_size, some (buf.take max_export_batch_size))

/-- Run a Batch Scheduler over a sequence of events, collecting every
exported batch in order. -/
def sched_run {α : Type} (buf : List α) : List (SchedEvent α) → List α × List (List α)
  | [] => (buf, [])
  | e :: es =>
      let step := sched_step buf e
      let rest := sched_run step.1 es
      (rest.1, (match step.2 with | some batch => [batch] | none => []) ++ rest.2)

/-- The log half of the pipeline: the local sink (stdout JSON lines, one
record per `log_with_trace` call) and the log Record Buffer holding the
severity and extras forwarded to the export pipeline. -/
structure LogPipeline where
  localSink : List Dict
  logBuffer : List (Nat × Dict)
deriving Repr

/-- An event in the log pipeline: a `log_with_trace` call, or an export
attempt whose outcome is `ok`. -/
inductive PipeEvent where
  | emit (env : LogEnv) (level : String) (message : String) (kwargs : Dict)
  | exportStep (ok : Bool)

/-- One log-pipeline step. An emit writes the record to the local sink
synchronously and enqueues `(severity, otlp extras)` into the log buffer,
exactly as `log_with_trace` does. An export drains a batch from the buffer;
modelled from the spec (§4.4): on failure the batch is dropped, never
retried, and in neither outcome is the local sink touched. -/
def pipe_step (st : LogPipeline) : PipeEvent → LogPipeline
  | PipeEvent.emit env level msg kwargs =>
      let d := log_with_trace env msg kwargs
      { localSink := st.localSink ++ [d],
        logBuffer := st.logBuffer ++ [(log_level_map_get level, otlp_extras d)] }
  | PipeEvent.exportStep _ =>
      { st with logBuffer := st.logBuffer.drop max_export_batch_size }

/-- Run the log pipeline over a sequence of events. -/
def pipe_run (st : LogPipeline) : List PipeEvent → LogPipeline
  | [] => st
  | e :: es => pipe_run (pipe_step st e) es

/-- The records produced by the emit events of a pipeline run, in order. -/
def emitted_records : List PipeEvent → List Dict
  | [] => []
  | PipeEvent.emit env _ msg kwargs :: es => log_with_trace env msg kwargs :: emitted_records es
  | PipeEvent.exportStep _ :: es => emitted_records es

/-- A concrete environment with an active span context (trace id 1, span id 2). -/
def env0 : LogEnv :=
  { spanContext := some ⟨1, 2⟩, spanAttributes := [], request := none }

/-- A concrete environment with no active span context. -/
def env_none : LogEnv :=
  { spanContext := none, spanAttributes := [], request := none }

/-- A concrete environment whose active span carries an `http.method`
attribute, while the caller passes a conflicting explicit `http.method`. -/
def c4_env : LogEnv :=
  { spanContext := some ⟨1, 2⟩, spanAttributes := [("http.method", Value.str "GET")],
    request := none }

/-- A concrete environment with a span `http.method` attribute and an active
request context. -/
def c4_envw : LogEnv :=
  { spanContext := some ⟨1, 2⟩, spanAttributes := [("http.method", Value.str "GET")],
    request := some ⟨"POST", "/r"⟩ }

/-- A concrete open root span. -/
def span0 : Span :=
  { traceId := 5, spanId := 6, parentSpanId := none, name := "root", startTime := 0,
    endTime := none, status := SpanStatus.unset, attributes := [] }

/-- A tracker with `span0` active. -/
def t0 : Tracker := { stack := [span0], buffer := [] }

/-- A tracker with no active span. -/
def tEmpty : Tracker := { stack := [], buffer := [] }

theorem Dict.get_insert_self (d : Dict) (k : String) (v : Value) :
    Dict.get (Dict.insert d k v) k = some v := by
  induction d with
  | nil => simp [Dict.insert, Dict.get]
  | cons kv rest ih =>
    by_cases h : kv.1 = k
    · simp [Dict.insert, Dict.get, h]
    · simp [Dict.insert, Dict.get, h, ih]

theorem Dict.get_insert_ne (d : Dict) (k : String) (v : Value) (q : String) (h : k ≠ q) :
    Dict.get (Dict.insert d k v) q = Dict.get d q := by
  induction d with
  | nil => simp [Dict.insert, Dict.get, h]
  | cons kv rest ih =>
    by_cases h2 : kv.1 = k
    · subst h2
      simp [Dict.insert, Dict.get, h]
    · by_cases h3 : kv.1 = q
      · simp [Dict.insert, Dict.get, h2, h3, Ne.symm h]
      · simp [Dict.insert, Dict.get, h2, h3, ih]

theorem Dict.get_insert_isSome (d : Dict) (k : String) (v : Value) (q : String)
    (h : (Dict.get d q).isSome = true) :
    (Dict.get (Dict.insert d k v) q).isSome = true := by
  by_cases hk : k = q
  · subst hk
    rw [Dict.get_insert_self]
    rfl
  · rw [Dict.get_insert_ne d k v q hk]
    exact h

theorem Dict.get_setdefault_ne (d : Dict) (k : String) (v : Value) (q : String) (h : k ≠ q) :
    Dict.get (Dict.setdefault d k v) q = Dict.get d q := by
  induction d with
  | nil => simp [Dict.setdefault, Dict.get, h]
  | cons kv rest ih =>
    by_cases h2 : kv.1 = k
    · simp [Dict.setdefault, Dict.get, h2]
    · by_cases h3 : kv.1 = q
      · simp [Dict.setdefault, Dict.get, h2, h3, Ne.symm h]
      · simp [Dict.setdefault, Dict.get, h2, h3, ih]

theorem Dict.get_setdefault_self (d : Dict) (k : String) (v : Value) :
    Dict.get (Dict.setdefault d k v) k = some ((Dict.get d k).getD v) := by
  induction d with
  | nil => simp [Dict.setdefault, Dict.get]
  | cons kv rest ih =>
    by_cases h : kv.1 = k
    · simp [Dict.setdefault, Dict.get, h]
    · simp [Dict.setdefault, Dict.get, h, ih]

theorem Dict.get_setdefault_of_get (d : Dict) (k : String) (v : Value) (q : String) (w : Value)
    (h : Dict.get d q = some w) :
    Dict.get (Dict.setdefault d k v) q = some w := by
  by_cases hk : k = q
  · subst hk
    rw [Dict.get_setdefault_self, h]
    rfl
  · rw [Dict.get_setdefault_ne d k v q hk]
    exact h

theorem Dict.get_setdefault_isSome (d : Dict) (k : String) (v : Value) (q : String)
    (h : (Dict.get d q).isSome = true) :
    (Dict.get (Dict.setdefault d k v) q).isSome = true := by
  obtain ⟨w, hw⟩ := Option.isSome_iff_exists.mp h
  rw [Dict.get_setdefault_of_get d k v q w hw]
  rfl

theorem Dict.get_eq_none_iff (d : Dict) (k : String) :
    Dict.get d k = none ↔ ∀ kv ∈ d, kv.1 ≠ k := by
  induction d with
  | nil => simp [Dict.get]
  | cons kv rest ih =>
    by_cases h : kv.1 = k
    · simp [Dict.get, h]
    · simp [Dict.get, h, ih]

theorem Dict.merge_cons (a : Dict) (kv : String × Value) (b : Dict) :
    Dict.merge a (kv :: b) = Dict.merge (Dict.insert a kv.1 kv.2) b := rfl

theorem Dict.get_merge_of_not_mem (a b : Dict) (k : String) (h : ∀ kv ∈ b, kv.1 ≠ k) :
    Dict.get (Dict.merge a b) k = Dict.get a k := by
  induction b generalizing a with
  | nil => rfl
  | cons kv rest ih =>
    rw [Dict.merge_cons]
    rw [ih (Dict.insert a kv.1 kv.2) (fun x hx => h x (List.mem_cons_of_mem kv hx))]
    exact Dict.get_insert_ne a kv.1 kv.2 k (h kv (List.mem_cons_self kv rest))

theorem Dict.get_merge_of_get (a b : Dict) (k : String) (v : Value)
    (hnd : (b.map Prod.fst).Nodup) (h : Dict.get b k = some v) :
    Dict.get (Dict.merge a b) k = some v := by
  induction b generalizing a with
  | nil => simp [Dict.get] at h
  | cons kv rest ih =>
    rw [Dict.merge_cons]
    rw [List.map_cons] at hnd
    obtain ⟨hnotmem, hndrest⟩ := List.nodup_cons.mp hnd
    by_cases hk : kv.1 = k
    · have hv : kv.2 = v := by
        simp [Dict.get, hk] at h
        exact h
      have hrest : ∀ x ∈ rest, x.1 ≠ k := by
        intro x hx hxk
        have hmem : kv.1 ∈ rest.map Prod.fst := by
          rw [hk, ← hxk]
          exact List.mem_map_of_mem Prod.fst hx
        exact hnotmem hmem
      rw [Dict.get_merge_of_not_mem (Dict.insert a kv.1 kv.2) rest k hrest]
      rw [hk, hv]
      exact Dict.get_insert_self a k v
    · have hrest : Dict.get rest k = some v := by
        simpa [Dict.get, hk] using h
      exact ih (Dict.insert a kv.1 kv.2) hndrest hrest

theorem Dict.get_merge_isSome (a b : Dict) (k : String)
    (h : (Dict.get a k).isSome = true) :
    (Dict.get (Dict.merge a b) k).isSome = true := by
  induction b generalizing a with
  | nil => exact h
  | cons kv rest ih =>
    rw [Dict.merge_cons]
    exact ih (Dict.insert a kv.1 kv.2) (Dict.get_insert_isSome a kv.1 kv.2 k h)

theorem addKeys_cons (attrs : Dict) (k0 : String) (l : List String) (d : Dict) :
    addKeys attrs (k0 :: l) d =
      addKeys attrs l
        (match Dict.get attrs k0 with
         | some v => Dict.insert d k0 v
         | none => d) := rfl

theorem addKeys_get_not_mem (attrs : Dict) (l : List String) (d : Dict) (k : String)
    (h : k ∉ l) :
    Dict.get (addKeys attrs l d) k = Dict.get d k := by
  induction l generalizing d with
  | nil => rfl
  | cons k0 rest ih =>
    rw [addKeys_cons]
    have hk0 : k0 ≠ k := fun he => h (he ▸ List.mem_cons_self k0 rest)
    have hrest : k ∉ rest := fun hm => h (List.mem_cons_of_mem k0 hm)
    cases hg : Dict.get attrs k0 with
    | none => exact ih d hrest
    | some v =>
      rw [ih (Dict.insert d k0 v) hrest]
      exact Dict.get_insert_ne d k0 v k hk0

theorem addKeys_get_mem (attrs : Dict) (l : List String) (d : Dict) (k : String) (v : Value)
    (hnd : l.Nodup) (hk : k ∈ l) (hv : Dict.get attrs k = some v) :
    Dict.get (addKeys attrs l d) k = some v := by
  induction l generalizing d with
  | nil => cases hk
  | cons k0 rest ih =>
    rw [addKeys_cons]
    obtain ⟨hnotmem, hndrest⟩ := List.nodup_cons.mp hnd
    by_cases he : k = k0
    · subst he
      rw [hv]
      rw [addKeys_get_not_mem attrs rest (Dict.insert d k v) k hnotmem]
      exact Dict.get_insert_self d k v
    · have hkrest : k ∈ rest := by
        cases List.mem_cons.mp hk with
        | inl h => exact absurd h he
        | inr h => exact h
      cases hg : Dict.get attrs k0 with
      | none => exact ih d hndrest hkrest
      | some w => exact ih (Dict.insert d k0 w) hndrest hkrest

theorem addKeys_get_attrs_none (attrs : Dict) (l : List String) (d : Dict) (k : String)
    (h : Dict.get attrs k = none) :
    Dict.get (addKeys attrs l d) k = Dict.get d k := by
  induction l generalizing d with
  | nil => rfl
  | cons k0 rest ih =>
    rw [addKeys_cons]
    by_cases he : k0 = k
    · subst he
      rw [h]
      exact ih d
    · cases hg : Dict.get attrs k0 with
      | none => exact ih d
      | some v =>
        rw [ih (Dict.insert d k0 v)]
        exact Dict.get_insert_ne d k0 v k he

theorem addKeys_get_isSome (attrs : Dict) (l : List String) (d : Dict) (k : String)
    (h : (Dict.get d k).isSome = true) :
    (Dict.get (addKeys attrs l d) k).isSome = true := by
  induction l generalizing d with
  | nil => exact h
  | cons k0 rest ih =>
    rw [addKeys_cons]
    cases hg : Dict.get attrs k0 with
    | none => exact ih d h
    | some v => exact ih (Dict.insert d k0 v) (Dict.get_insert_isSome d k0 v k h)

theorem add_request_defaults_get_ne (req : Option ReqCtx) (d : Dict) (k : String)
    (h1 : k ≠ "http.method") (h2 : k ≠ "http.target") :
    Dict.get (add_request_defaults req d) k = Dict.get d k := by
  cases req with
  | none => rfl
  | some r =>
    unfold add_request_defaults
    rw [Dict.get_setdefault_ne _ _ _ _ (Ne.symm h2)]
    exact Dict.get_setdefault_ne _ _ _ _ (Ne.symm h1)

theorem add_request_defaults_get_of_get (req : Option ReqCtx) (d : Dict) (k : String)
    (v : Value) (h : Dict.get d k = some v) :
    Dict.get (add_request_defaults req d) k = some v := by
  cases req with
  | none => exact h
  | some r =>
    unfold add_request_defaults
    exact Dict.get_setdefault_of_get _ _ _ _ _ (Dict.get_setdefault_of_get _ _ _ _ _ h)

theorem add_request_defaults_get_isSome (req : Option ReqCtx) (d : Dict) (k : String)
    (h : (Dict.get d k).isSome = true) :
    (Dict.get (add_request_defaults req d) k).isSome = true := by
  obtain ⟨w, hw⟩ := Option.isSome_iff_exists.mp h
  rw [add_request_defaults_get_of_get req d k w hw]
  rfl

theorem otlp_extras_get_message (d : Dict) :
    Dict.get (otlp_extras d) "message" = none := by
  induction d with
  | nil => rfl
  | cons kv rest ih =>
    by_cases h : kv.1 = "message"
    · simpa [otlp_extras, List.filter_cons, h] using ih
    · simpa [otlp_extras, List.filter_cons, h, Dict.get] using ih

theorem otlp_extras_get_ne (d : Dict) (k : String) (h : k ≠ "message") :
    Dict.get (otlp_extras d) k = Dict.get d k := by
  induction d with
  | nil => rfl
  | cons kv rest ih =>
    by_cases h2 : kv.1 = "message"
    · simpa [otlp_extras, List.filter_cons, h2, Dict.get, Ne.symm h] using ih
    · by_cases h3 : kv.1 = k
      · simp [otlp_extras, List.filter_cons, h2, Dict.get, h3, h]
      · simpa [otlp_extras, List.filter_cons, h2, Dict.get, h3] using ih

theorem toDigitsCore_length_le (fuel : Nat) :
    ∀ (k n : Nat) (ds : List Char), n < 16 ^ k → 1 ≤ k →
      (Nat.toDigitsCore 16 fuel n ds).length ≤ k + ds.length := by
  induction fuel with
  | zero =>
    intro k n ds _ _
    show ds.length ≤ k + ds.length
    omega
  | succ fuel ih =>
    intro k n ds hn hk
    rw [Nat.toDigitsCore]
    by_cases hz : n / 16 = 0
    · simp [hz]
      omega
    · simp [hz]
      obtain ⟨k1, rfl⟩ : ∃ k1, k = k1 + 1 := ⟨k - 1, by omega⟩
      have hk1 : 1 ≤ k1 := by
        rcases Nat.eq_zero_or_pos k1 with h0 | h1
        · subst h0
          have : n < 16 := by simpa using hn
          exact absurd (Nat.div_eq_of_lt this) hz
        · exact h1
      have hlt : n / 16 < 16 ^ k1 := by
        rw [Nat.div_lt_iff_lt_mul (by norm_num : 0 < 16)]
        calc n < 16 ^ (k1 + 1) := hn
        _ = 16 ^ k1 * 16 := by rw [pow_succ]
      have := ih k1 (n / 16) (Nat.digitChar (n % 16) :: ds) hlt hk1
      simp at this
      omega

theorem toDigits_length_le (k n : Nat) (hn : n < 16 ^ k) (hk : 1 ≤ k) :
    (Nat.toDigits 16 n).length ≤ k := by
  have := toDigitsCore_length_le (n + 1) k n [] hn hk
  simpa [Nat.toDigits] using this

theorem format_x_length (w n : Nat) (hn : n < 16 ^ w) (hw : 1 ≤ w) :
    (format_x w n).length = w := by
  have hle := toDigits_length_le w n hn hw
  show (List.replicate (w - (Nat.toDigits 16 n).length) '0' ++ Nat.toDigits 16 n).length = w
  rw [List.length_append, List.length_replicate]
  omega

theorem digitChar_isHex (d : Nat) (h : d < 16) : isHexChar (Nat.digitChar d) = true := by
  have hall : ∀ m, m < 16 → isHexChar (Nat.digitChar m) = true := by decide
  exact hall d h

theorem toDigitsCore_all_hex (fuel : Nat) :
    ∀ (n : Nat) (ds : List Char), (∀ c ∈ ds, isHexChar c = true) →
      ∀ c ∈ Nat.toDigitsCore 16 fuel n ds, isHexChar c = true := by
  induction fuel with
  | zero =>
    intro n ds hds c hc
    exact hds c (by simpa [Nat.toDigitsCore] using hc)
  | succ fuel ih =>
    intro n ds hds c hc
    rw [Nat.toDigitsCore] at hc
    by_cases hz : n / 16 = 0
    · simp [hz] at hc
      cases hc with
      | inl h => exact h ▸ digitChar_isHex (n % 16) (Nat.mod_lt n (by norm_num))
      | inr h => exact hds c h
    · simp [hz] at hc
      refine ih (n / 16) (Nat.digitChar (n % 16) :: ds) ?_ c hc
      intro x hx
      cases List.mem_cons.mp hx with
      | inl h => exact h ▸ digitChar_isHex (n % 16) (Nat.mod_lt n (by norm_num))
      | inr h => exact hds x h

theorem format_x_all_hex (w n : Nat) : ((format_x w n).data).all isHexChar = true := by
  rw [List.all_eq_true]
  show ∀ c ∈ List.replicate (w - (Nat.toDigits 16 n).length) '0' ++ Nat.toDigits 16 n,
    isHexChar c = true
  intro c hc
  cases List.mem_append.mp hc with
  | inl h =>
    have : c = '0' := List.eq_of_mem_replicate h
    subst this
    decide
  | inr h =>
    exact toDigitsCore_all_hex (n + 1) n [] (by intro x hx; cases hx) c h

theorem log_with_trace_eq_of_some (env : LogEnv) (msg : String) (kwargs : Dict) (ctx : SpanCtx)
    (h : env.spanContext = some ctx) :
    log_with_trace env msg kwargs =
      add_request_defaults env.request
        (addKeys env.spanAttributes httpKeys
          (Dict.insert
            (Dict.insert
              (Dict.merge [("message", Value.str msg), ("service.name", Value.str "python-test-app")] kwargs)
              "trace_id" (Value.str (format_x 32 ctx.traceId)))
            "span_id" (Value.str (format_x 16 ctx.spanId)))) := by
  simp only [log_with_trace, h]

theorem log_with_trace_eq_of_none (env : LogEnv) (msg : String) (kwargs : Dict)
    (h : env.spanContext = none) :
    log_with_trace env msg kwargs =
      add_request_defaults env.request
        (Dict.merge [("message", Value.str msg), ("service.name", Value.str "python-test-app")] kwargs) := by
  simp only [log_with_trace, h]

theorem log_with_trace_trace_id (env : LogEnv) (msg : String) (kwargs : Dict) (ctx : SpanCtx)
    (h : env.spanContext = some ctx) :
    Dict.get (log_with_trace env msg kwargs) "trace_id" =
      some (Value.str (format_x 32 ctx.traceId)) := by
  rw [log_with_trace_eq_of_some env msg kwargs ctx h]
  rw [add_request_defaults_get_ne _ _ _ (by decide) (by decide)]
  rw [addKeys_get_not_mem _ _ _ _ (by decide)]
  rw [Dict.get_insert_ne _ _ _ _ (by decide)]
  exact Dict.get_insert_self _ _ _

theorem log_with_trace_span_id (env : LogEnv) (msg : String) (kwargs : Dict) (ctx : SpanCtx)
    (h : env.spanContext = some ctx) :
    Dict.get (log_with_trace env msg kwargs) "span_id" =
      some (Value.str (format_x 16 ctx.spanId)) := by
  rw [log_with_trace_eq_of_some env msg kwargs ctx h]
  rw [add_request_defaults_get_ne _ _ _ (by decide) (by decide)]
  rw [addKeys_get_not_mem _ _ _ _ (by decide)]
  exact Dict.get_insert_self _ _ _

theorem log_with_trace_absent_of_none (env : LogEnv) (msg : String) (kwargs : Dict) (k : String)
    (h : env.spanContext = none) (hk : Dict.get kwargs k = none)
    (h1 : k ≠ "message") (h2 : k ≠ "service.name")
    (h3 : k ≠ "http.method") (h4 : k ≠ "http.target") :
    Dict.get (log_with_trace env msg kwargs) k = none := by
  rw [log_with_trace_eq_of_none env msg kwargs h]
  rw [add_request_defaults_get_ne _ _ _ h3 h4]
  rw [Dict.get_merge_of_not_mem _ _ _ ((Dict.get_eq_none_iff kwargs k).mp hk)]
  simp [Dict.get, Ne.symm h1, Ne.symm h2]

theorem log_with_trace_get_isSome (env : LogEnv) (msg : String) (kwargs : Dict) (k : String)
    (h : (Dict.get [("message", Value.str msg), ("service.name", Value.str "python-test-app")] k).isSome = true) :
    (Dict.get (log_with_trace env msg kwargs) k).isSome = true := by
  cases hsc : env.spanContext with
  | none =>
    rw [log_with_trace_eq_of_none env msg kwargs hsc]
    exact add_request_defaults_get_isSome _ _ _ (Dict.get_merge_isSome _ _ _ h)
  | some ctx =>
    rw [log_with_trace_eq_of_some env msg kwargs ctx hsc]
    exact add_request_defaults_get_isSome _ _ _
      (addKeys_get_isSome _ _ _ _
        (Dict.get_insert_isSome _ _ _ _
          (Dict.get_insert_isSome _ _ _ _
            (Dict.get_merge_isSome _ _ _ h))))

theorem sched_run_cons (α : Type) (buf : List α) (e : SchedEvent α) (es : List (SchedEvent α)) :
    sched_run buf (e :: es) =
      ((sched_run (sched_step buf e).1 es).1,
       (match (sched_step buf e).2 with
        | some batch => [batch]
        | none => []) ++ (sched_run (sched_step buf e).1 es).2) := rfl

theorem sched_run_no_export_of_small (α : Type) (buf : List α) (rs : List α)
    (h : buf.length + rs.length < max_export_batch_size) :
    (sched_run buf (rs.map SchedEvent.enq)).2 = [] := by
  induction rs generalizing buf with
  | nil => rfl
  | cons r rest ih =>
    have hlen : (buf ++ [r]).length = buf.length + 1 := by simp
    have hlt : buf.length + 1 + rest.length < max_export_batch_size := by
      rw [List.length_cons] at h
      omega
    have hc : ¬ max_export_batch_size ≤ (buf ++ [r]).length := by
      rw [hlen]
      omega
    have hstep : sched_step buf (SchedEvent.enq r) = (buf ++ [r], none) := by
      have heq : sched_step buf (SchedEvent.enq r) =
          if max_export_batch_size ≤ (buf ++ [r]).length
          then ((buf ++ [r]).drop max_export_batch_size,
                some ((buf ++ [r]).take max_export_batch_size))
          else (buf ++ [r], none) := rfl
      rw [heq, if_neg hc]
    rw [List.map_cons, sched_run_cons, hstep]
    simp only [List.nil_append]
    exact ih (buf ++ [r]) (by rw [hlen]; exact hlt)

/-- C1: every log record produced by `log_with_trace` while a span with a
valid span context is active carries exactly that span's trace_id and
span_id, serialized as in the source. -/
theorem c1_log_trace_correlation (env : LogEnv) (msg : String) (kwargs : Dict) (ctx : SpanCtx)
    (h : env.spanContext = some ctx) :
    Dict.get (log_with_trace env msg kwargs) "trace_id" =
      some (Value.str (format_x 32 ctx.traceId)) ∧
    Dict.get (log_with_trace env msg kwargs) "span_id" =
      some (Value.str (format_x 16 ctx.spanId)) :=
  ⟨log_with_trace_trace_id env msg kwargs ctx h, log_with_trace_span_id env msg kwargs ctx h⟩

/-- C1 witness at trace id 1 and span id 2. -/
theorem c1_log_trace_correlation_witness :
    Dict.get (log_with_trace env0 "hello" []) "trace_id" =
      some (Value.str "00000000000000000000000000000001") ∧
    Dict.get (log_with_trace env0 "hello" []) "span_id" =
      some (Value.str "0000000000000002") := by
  have h := c1_log_trace_correlation env0 "hello" [] ⟨1, 2⟩ rfl
  exact ⟨h.1.trans (by decide), h.2.trans (by decide)⟩

/-- C6: a log record produced while no span context is valid, by a caller
whose explicit attributes do not themselves use the trace_id or span_id keys
(no caller in the program does), has no trace_id and no span_id field at
all. -/
theorem c6_no_span_ids_absent (env : LogEnv) (msg : String) (kwargs : Dict)
    (h : env.spanContext = none)
    (h1 : Dict.get kwargs "trace_id" = none) (h2 : Dict.get kwargs "span_id" = none) :
    Dict.get (log_with_trace env msg kwargs) "trace_id" = none ∧
    Dict.get (log_with_trace env msg kwargs) "span_id" = none :=
  ⟨log_with_trace_absent_of_none env msg kwargs "trace_id" h h1
      (by decide) (by decide) (by decide) (by decide),
   log_with_trace_absent_of_none env msg kwargs "span_id" h h2
      (by decide) (by decide) (by decide) (by decide)⟩

/-- C6 witness with no active span and empty kwargs. -/
theorem c6_no_span_ids_absent_witness :
    Dict.get (log_with_trace env_none "hello" []) "trace_id" = none ∧
    Dict.get (log_with_trace env_none "hello" []) "span_id" = none :=
  c6_no_span_ids_absent env_none "hello" [] rfl rfl rfl

/-- C8: the trace_id serialized into a correlated log record is exactly 32
lowercase hexadecimal characters and the span_id exactly 16, for any 128-bit
trace id and 64-bit span id. -/
theorem c8_hex_serialization (env : LogEnv) (msg : String) (kwargs : Dict) (ctx : SpanCtx)
    (h : env.spanContext = some ctx)
    (h1 : ctx.traceId < 2 ^ 128) (h2 : ctx.spanId < 2 ^ 64) :
    ∃ s t : String,
      Dict.get (log_with_trace env msg kwargs) "trace_id" = some (Value.str s) ∧
      s.length = 32 ∧ s.data.all isHexChar = true ∧
      Dict.get (log_with_trace env msg kwargs) "span_id" = some (Value.str t) ∧
      t.length = 16 ∧ t.data.all isHexChar = true := by
  have e1 : (16 : Nat) ^ 32 = 2 ^ 128 := by norm_num
  have e2 : (16 : Nat) ^ 16 = 2 ^ 64 := by norm_num
  refine ⟨format_x 32 ctx.traceId, format_x 16 ctx.spanId,
    log_with_trace_trace_id env msg kwargs ctx h,
    format_x_length 32 ctx.traceId (by rw [e1]; exact h1) (by norm_num),
    format_x_all_hex 32 ctx.traceId,
    log_with_trace_span_id env msg kwargs ctx h,
    format_x_length 16 ctx.spanId (by rw [e2]; exact h2) (by norm_num),
    format_x_all_hex 16 ctx.spanId⟩

/-- C8 witness at trace id 1 and span id 2. -/
theorem c8_hex_serialization_witness :
    (1 : Nat) < 2 ^ 128 ∧ (2 : Nat) < 2 ^ 64 ∧
    ∃ s t : String,
      Dict.get (log_with_trace env0 "hello" []) "trace_id" = some (Value.str s) ∧
      s.length = 32 ∧ s.data.all isHexChar = true ∧
      Dict.get (log_with_trace env0 "hello" []) "span_id" = some (Value.str t) ∧
      t.length = 16 ∧ t.data.all isHexChar = true :=
  ⟨by norm_num, by norm_num,
   c8_hex_serialization env0 "hello" [] ⟨1, 2⟩ rfl (by norm_num) (by norm_num)⟩

/-- C9: any level string outside info/warning/error — including the debug and
warn levels passed by callers in the program — is forwarded to the export
logging pipeline at INFO severity, the fallback of the level map. -/
theorem c9_level_fallback (st : LogPipeline) (env : LogEnv) (level msg : String) (kwargs : Dict)
    (h1 : level ≠ "info") (h2 : level ≠ "warning") (h3 : level ≠ "error") :
    log_level_map_get level = logging_INFO ∧
    (pipe_step st (PipeEvent.emit env level msg kwargs)).logBuffer =
      st.logBuffer ++ [(logging_INFO, otlp_extras (log_with_trace env msg kwargs))] := by
  have hmap : log_level_map_get level = logging_INFO := by
    simp [log_level_map_get, h1, h2, h3]
  exact ⟨hmap, by simp [pipe_step, hmap]⟩

/-- C9 witness at the two levels actually passed by callers, debug and warn. -/
theorem c9_level_fallback_witness :
    (log_level_map_get "debug" = logging_INFO ∧
      (pipe_step ⟨[], []⟩ (PipeEvent.emit env_none "debug" "x" [])).logBuffer =
        [] ++ [(logging_INFO, otlp_extras (log_with_trace env_none "x" []))]) ∧
    (log_level_map_get "warn" = logging_INFO ∧
      (pipe_step ⟨[], []⟩ (PipeEvent.emit env_none "warn" "x" [])).logBuffer =
        [] ++ [(logging_INFO, otlp_extras (log_with_trace env_none "x" []))]) :=
  ⟨c9_level_fallback ⟨[], []⟩ env_none "debug" "x" [] (by decide) (by decide) (by decide),
   c9_level_fallback ⟨[], []⟩ env_none "warn" "x" [] (by decide) (by decide) (by decide)⟩

/-- C10: the attribute set forwarded to the export pipeline is the local-sink
record with exactly the message key removed; the local-sink record always has
the message and service.name keys, and the exported extras never have
message. -/
theorem c10_export_extras (env : LogEnv) (msg : String) (kwargs : Dict) :
    Dict.get (otlp_extras (log_with_trace env msg kwargs)) "message" = none ∧
    (∀ k, k ≠ "message" →
      Dict.get (otlp_extras (log_with_trace env msg kwargs)) k =
        Dict.get (log_with_trace env msg kwargs) k) ∧
    (Dict.get (log_with_trace env msg kwargs) "message").isSome = true ∧
    (Dict.get (log_with_trace env msg kwargs) "service.name").isSome = true := by
  refine ⟨otlp_extras_get_message _, fun k hk => otlp_extras_get_ne _ k hk, ?_, ?_⟩
  · exact log_with_trace_get_isSome env msg kwargs "message" (by simp [Dict.get])
  · exact log_with_trace_get_isSome env msg kwargs "service.name" (by simp [Dict.get])

/-- C10 witness at a concrete record with an endpoint attribute. -/
theorem c10_export_extras_witness :
    Dict.get (otlp_extras (log_with_trace env_none "hello" [("endpoint", Value.str "/")])) "message" = none ∧
    Dict.get (otlp_extras (log_with_trace env_none "hello" [("endpoint", Value.str "/")])) "endpoint" =
      Dict.get (log_with_trace env_none "hello" [("endpoint", Value.str "/")]) "endpoint" ∧
    (Dict.get (log_with_trace env_none "hello" [("endpoint", Value.str "/")]) "message").isSome = true ∧
    (Dict.get (log_with_trace env_none "hello" [("endpoint", Value.str "/")]) "service.name").isSome = true := by
  have h := c10_export_extras env_none "hello" [("endpoint", Value.str "/")]
  exact ⟨h.1, h.2.1 "endpoint" (by decide), h.2.2.1, h.2.2.2⟩

/-- C4 counterexample: with an ambient span attribute `http.method = "GET"`
and an explicit per-call attribute `http.method = "POST"`, the record carries
`"GET"` — the ambient span-derived attribute overrides the explicit per-call
one, refuting the claimed precedence. -/
theorem c4_precedence_counterexample :
    Dict.get (log_with_trace c4_env "m" [("http.method", Value.str "POST")]) "http.method" =
      some (Value.str "GET") ∧
    some (Value.str "GET") ≠ some (Value.str "POST") := by decide

/-- C4 amended: trace_id and span_id always carry the correlation values and
are never overridden by any caller or ambient attribute; span-derived HTTP
attributes override explicit per-call attributes; explicit per-call
attributes override the request-context ambient method and path, which are
only filled in when absent. -/
theorem c4_precedence_amended (env : LogEnv) (msg : String) (kwargs : Dict) (ctx : SpanCtx)
    (h : env.spanContext = some ctx) :
    Dict.get (log_with_trace env msg kwargs) "trace_id" =
      some (Value.str (format_x 32 ctx.traceId)) ∧
    Dict.get (log_with_trace env msg kwargs) "span_id" =
      some (Value.str (format_x 16 ctx.spanId)) ∧
    (∀ k v, k ∈ httpKeys → Dict.get env.spanAttributes k = some v →
      Dict.get (log_with_trace env msg kwargs) k = some v) ∧
    (∀ v, (kwargs.map Prod.fst).Nodup → Dict.get env.spanAttributes "http.method" = none →
      Dict.get kwargs "http.method" = some v →
      Dict.get (log_with_trace env msg kwargs) "http.method" = some v) ∧
    (∀ v, (kwargs.map Prod.fst).Nodup → Dict.get env.spanAttributes "http.target" = none →
      Dict.get kwargs "http.target" = some v →
      Dict.get (log_with_trace env msg kwargs) "http.target" = some v) := by
  refine ⟨log_with_trace_trace_id env msg kwargs ctx h,
    log_with_trace_span_id env msg kwargs ctx h, ?_, ?_, ?_⟩
  · intro k v hkmem hattr
    rw [log_with_trace_eq_of_some env msg kwargs ctx h]
    exact add_request_defaults_get_of_get _ _ _ _
      (addKeys_get_mem env.spanAttributes httpKeys _ k v (by decide) hkmem hattr)
  · intro v hnd hnone hkw
    rw [log_with_trace_eq_of_some env msg kwargs ctx h]
    apply add_request_defaults_get_of_get
    rw [addKeys_get_attrs_none _ _ _ _ hnone]
    rw [Dict.get_insert_ne _ _ _ _ (by decide)]
    rw [Dict.get_insert_ne _ _ _ _ (by decide)]
    exact Dict.get_merge_of_get _ kwargs _ v hnd hkw
  · intro v hnd hnone hkw
    rw [log_with_trace_eq_of_some env msg kwargs ctx h]
    apply add_request_defaults_get_of_get
    rw [addKeys_get_attrs_none _ _ _ _ hnone]
    rw [Dict.get_insert_ne _ _ _ _ (by decide)]
    rw [Dict.get_insert_ne _ _ _ _ (by decide)]
    exact Dict.get_merge_of_get _ kwargs _ v hnd hkw

/-- C4 witness: with span attribute `http.method = "GET"`, an active request
context, and explicit `http.target = "/t"`, the record keeps the correlation
trace_id, the span-derived method, and the explicit target. -/
theorem c4_precedence_amended_witness :
    Dict.get (log_with_trace c4_envw "m" [("http.target", Value.str "/t")]) "trace_id" =
      some (Value.str "00000000000000000000000000000001") ∧
    Dict.get (log_with_trace c4_envw "m" [("http.target", Value.str "/t")]) "http.method" =
      some (Value.str "GET") ∧
    Dict.get (log_with_trace c4_envw "m" [("http.target", Value.str "/t")]) "http.target" =
      some (Value.str "/t") := by
  have h := c4_precedence_amended c4_envw "m" [("http.target", Value.str "/t")] ⟨1, 2⟩ rfl
  refine ⟨h.1.trans (by decide), ?_, ?_⟩
  · exact h.2.2.1 "http.method" (Value.str "GET") (by decide) (by decide)
  · exact h.2.2.2.2 (Value.str "/t") (by decide) (by decide) (by decide)

/-- C2: a child span opened while a parent is active inherits the parent's
trace_id, records the parent's span_id as its parent, and on scoped release
restores the parent as the current span; closing a root span leaves no
current span. -/
theorem c2_nested_span_lifo (name : String) (ft fs n1 n2 : Nat) (t : Tracker) :
    (∀ P, current t = some P →
      ∃ c, current (start_span name ft fs n1 t) = some c ∧
        c.traceId = P.traceId ∧ c.parentSpanId = some P.spanId ∧
        current (end_span n2 (start_span name ft fs n1 t)) = some P) ∧
    (current t = none → current (end_span n2 (start_span name ft fs n1 t)) = none) := by
  constructor
  · intro P hP
    cases hst : t.stack with
    | nil => simp [current, hst] at hP
    | cons a rest =>
      have ha : a = P := by simpa [current, hst] using hP
      subst ha
      refine ⟨{ traceId := a.traceId, spanId := fs, parentSpanId := some a.spanId,
                name := name, startTime := n1, endTime := none,
                status := SpanStatus.unset, attributes := [] }, ?_, rfl, rfl, ?_⟩
      · simp [start_span, current, hst]
      · simp [start_span, end_span, current, hst]
  · intro hnone
    have hst : t.stack = [] := by
      cases hst2 : t.stack with
      | nil => rfl
      | cons a rest => simp [current, hst2] at hnone
    simp [start_span, end_span, current, hst]

/-- C2 witness: a child opened under `span0` inherits trace id 5 and parent
span id 6, release restores `span0`; closing a root over the empty tracker
leaves no current span. -/
theorem c2_nested_span_lifo_witness :
    (∃ c, current (start_span "child" 9 7 1 t0) = some c ∧
      c.traceId = span0.traceId ∧ c.parentSpanId = some span0.spanId ∧
      current (end_span 2 (start_span "child" 9 7 1 t0)) = some span0) ∧
    current (end_span 2 (start_span "root2" 9 7 1 tEmpty)) = none :=
  ⟨(c2_nested_span_lifo "child" 9 7 1 2 t0).1 span0 rfl,
   (c2_nested_span_lifo "root2" 9 7 1 2 tEmpty).2 rfl⟩

/-- C7: when the unit of work inside a span errors, the scoped release still
runs — the completed span is enqueued into the span buffer with its status
set to Error carrying the message and its end_time set, and the previous
stack of active spans is fully restored. -/
theorem c7_error_path_release (name msg : String) (ft fs n1 n2 : Nat) (t : Tracker) :
    ∃ s : Span,
      with_span name ft fs n1 n2 (Except.error msg) t =
        { stack := t.stack, buffer := t.buffer ++ [s] } ∧
      s.status = SpanStatus.error msg ∧ s.endTime = some n2 ∧ s.name = name ∧
      current (with_span name ft fs n1 n2 (Except.error msg) t) = current t := by
  cases hst : t.stack with
  | nil =>
    refine ⟨{ traceId := ft, spanId := fs, parentSpanId := none, name := name,
              startTime := n1, endTime := some n2, status := SpanStatus.error msg,
              attributes := [] }, ?_, rfl, rfl, rfl, ?_⟩
    · simp [with_span, start_span, set_status, end_span, hst]
    · simp [with_span, start_span, set_status, end_span, current, hst]
  | cons a rest =>
    refine ⟨{ traceId := a.traceId, spanId := fs, parentSpanId := some a.spanId,
              name := name, startTime := n1, endTime := some n2,
              status := SpanStatus.error msg, attributes := [] }, ?_, rfl, rfl, rfl, ?_⟩
    · simp [with_span, start_span, set_status, end_span, hst]
    · simp [with_span, start_span, set_status, end_span, current, hst]

/-- C3: with the source's batch configuration (max_export_batch_size 50,
schedule_delay_millis 5000), the enqueue that brings the buffer to 50 records
exports a full batch in the same step, while any run of enqueues that stays
under 50 records produces no export before a timer tick. -/
theorem c3_dual_trigger_batching (α : Type) (buf : List α) (r : α) (rs : List α) :
    max_export_batch_size = 50 ∧ schedule_delay_millis = 5000 ∧
    (buf.length + 1 = max_export_batch_size →
      (sched_step buf (SchedEvent.enq r)).2 = some (buf ++ [r]) ∧
      (buf ++ [r]).length = max_export_batch_size) ∧
    (buf.length + rs.length < max_export_batch_size →
      (sched_run buf (rs.map SchedEvent.enq)).2 = []) := by
  refine ⟨rfl, rfl, ?_, fun h => sched_run_no_export_of_small α buf rs h⟩
  intro h
  have hlen : (buf ++ [r]).length = max_export_batch_size := by
    rw [List.length_append, List.length_singleton]
    exact h
  have hle : max_export_batch_size ≤ (buf ++ [r]).length := le_of_eq hlen.symm
  have heq : sched_step buf (SchedEvent.enq r) =
      if max_export_batch_size ≤ (buf ++ [r]).length
      then ((buf ++ [r]).drop max_export_batch_size,
            some ((buf ++ [r]).take max_export_batch_size))
      else (buf ++ [r], none) := rfl
  rw [heq, if_pos hle]
  exact ⟨by rw [List.take_of_length_le (le_of_eq hlen)], hlen⟩

/-- C3 witness: the 50th record triggers an immediate export; three enqueues
from empty trigger none. -/
theorem c3_dual_trigger_batching_witness :
    ((List.replicate 49 (0 : Nat)).length + 1 = max_export_batch_size) ∧
    (sched_step (List.replicate 49 (0 : Nat)) (SchedEvent.enq 0)).2 =
      some (List.replicate 49 (0 : Nat) ++ [0]) ∧
    (sched_run ([] : List Nat) ([1, 2, 3].map SchedEvent.enq)).2 = [] := by
  have h := c3_dual_trigger_batching Nat (List.replicate 49 (0 : Nat)) 0 [1, 2, 3]
  have h1 : (List.replicate 49 (0 : Nat)).length + 1 = max_export_batch_size := by decide
  refine ⟨h1, (h.2.2.1 h1).1, ?_⟩
  exact (c3_dual_trigger_batching Nat ([] : List Nat) 0 [1, 2, 3]).2.2.2 (by decide)

/-- C5: the local sink receives every record emitted through the correlation
logger, synchronously and unconditionally — no sequence of export attempts,
however many fail, removes or withholds a record from the local sink. -/
theorem c5_local_sink_unconditional (st : LogPipeline) (evs : List PipeEvent) :
    (pipe_run st evs).localSink = st.localSink ++ emitted_records evs := by
  induction evs generalizing st with
  | nil => simp [pipe_run, emitted_records]
  | cons e es ih =>
    cases e with
    | emit env level msg kwargs =>
      have hrun : pipe_run st (PipeEvent.emit env level msg kwargs :: es) =
          pipe_run (pipe_step st (PipeEvent.emit env level msg kwargs)) es := rfl
      rw [hrun, ih]
      simp [pipe_step, emitted_records]
    | exportStep ok =>
      have hrun : pipe_run st (PipeEvent.exportStep ok :: es) =
          pipe_run (pipe_step st (PipeEvent.exportStep ok)) es := rfl
      rw [hrun, ih]
      simp [pipe_step, emitted_records]

end SignozApp
